import Mathlib

/-!
Verification of the resilient telemetry uplink of the
ASG-WDS-Monitor-Early-Warning-System repository.

The subject is `src/http_uploader.py` (class `HTTPUploader`): the delivery
attempt with bounded retries and exponential backoff (`_upload_single`), the
disk-backed spill queue (`self.cache`, `_load_cache`, `_save_cache`,
`_add_to_cache`), the drain of the queue after a successful delivery
(`_upload_cached_data`), and the top-level `upload` entry point.

Modelling conventions:
* The network is an oracle `net : ℕ → AttemptOutcome` giving the outcome of
  each successive HTTP POST attempt; an index `idx` threads the position of
  the next attempt through the model, so "attempt number k of a call that
  starts at idx" observes `net (idx + k - 1)`.
* The uploader state (`UploaderState`) carries the fields of the Python
  object that the claims speak about (`enable_cache`, `retry_times`,
  `cache`) together with an explicit model of the cache file on disk
  (`FileState`) and the warning/error log streams.
* The Python code is duck-typed in the cached payload dicts: nothing in the
  queue logic inspects a `sensor_data` value other than by `==` (in
  `self.cache.remove`).  The state-machine model is therefore polymorphic in
  the entry type `α` with decidable equality; the payload-building half of
  `_upload_single` (lines 128-179) is modelled separately and concretely by
  `buildUsv` over `SensorData`.
* File writes can fail (`json.dump` raising); a `writeFail : Bool` oracle
  parameter says whether the write performed by a given call raises.  The
  Python code catches the exception, logs an error and continues; the model
  does the same.
-/

/-- Outcome of one HTTP POST attempt as distinguished by `_upload_single`
(lines 191-236 of `src/http_uploader.py`):
* `ok ts` — status 200, body parses, `result.get('ok')` truthy (returns True);
* `reject e` — status 200, body parses, `result.get('ok')` falsy
  ("服务器返回错误不重试": terminal, returns False immediately);
* `httpError s` — status ≠ 200 (retryable);
* `timeout` — `requests.exceptions.Timeout` (retryable);
* `connError` — `requests.exceptions.ConnectionError` (retryable);
* `otherError` — any other exception, e.g. a malformed 200 body (retryable). -/
inductive AttemptOutcome where
  | ok (serverTs : ℤ)
  | reject (err : String)
  | httpError (status : ℕ)
  | timeout
  | connError
  | otherError
deriving DecidableEq, Repr

/-- Holds exactly on the outcome that makes `_upload_single` return True. -/
def isOkOutcome : AttemptOutcome → Bool
  | .ok _ => true
  | _ => false

/-- Holds on the outcomes that neither succeed nor terminally reject, i.e.
the ones after which the retry loop of `_upload_single` continues. -/
def isRetryable : AttemptOutcome → Bool
  | .ok _ => false
  | .reject _ => false
  | _ => true

/-- Observable result of one `_upload_single` call: the returned Bool, the
number of POST attempts actually made, and the list of backoff sleeps (in
seconds) inserted between attempts, in order. -/
structure SingleResult where
  success : Bool
  attempts : ℕ
  sleeps : List ℕ
deriving DecidableEq, Repr

/-- The retry loop `for attempt in range(1, max_attempts + 1)` of
`_upload_single` (lines 191-247).  `a` is the 1-based attempt number, `idx`
the oracle position of this attempt, `r` the number of attempts still
allowed (so `a + r = maxAttempts + 1` on every call reached from
`uploadSingle`).  A 200/ok response returns True at once; a 200 response
with `ok` falsy returns False at once (no retry); otherwise, when retry is
enabled and `attempt < max_attempts`, the loop sleeps `2 ** attempt` seconds
and tries again, and when attempts are exhausted it falls out of the loop
and returns False. -/
def attemptLoop (net : ℕ → AttemptOutcome) (useRetry : Bool) (maxAttempts : ℕ) :
    ℕ → ℕ → ℕ → SingleResult
  | _, _, 0 => ⟨false, 0, []⟩
  | a, idx, r + 1 =>
    match net idx with
    | .ok _ => ⟨true, 1, []⟩
    | .reject _ => ⟨false, 1, []⟩
    | _ =>
      if useRetry && a < maxAttempts then
        let rest := attemptLoop net useRetry maxAttempts (a + 1) (idx + 1) r
        ⟨rest.success, rest.attempts + 1, 2 ^ a :: rest.sleeps⟩
      else
        ⟨false, 1, []⟩

/-- Model of the `HTTPUploader._upload_single(sensor_data, use_retry)` attempt phase:
`max_attempts = self.retry_times if use_retry else 1`, then the retry loop.
(The payload-building phase, which does not affect control flow, is modelled
separately by `buildUsv`.) -/
def uploadSingle (net : ℕ → AttemptOutcome) (idx : ℕ) (retryTimes : ℕ)
    (useRetry : Bool) : SingleResult :=
  let maxAttempts := if useRetry then retryTimes else 1
  attemptLoop net useRetry maxAttempts 1 idx maxAttempts

example :
    uploadSingle (fun _ => .timeout) 0 3 true = ⟨false, 3, [2, 4]⟩ := by decide

example :
    uploadSingle (fun _ => .reject "bad payload") 0 3 true = ⟨false, 1, []⟩ := by
  decide

example :
    uploadSingle (fun n => if n = 0 then .connError else .ok 5) 0 3 true
      = ⟨true, 2, [2]⟩ := by decide

example : uploadSingle (fun _ => .timeout) 7 3 false = ⟨false, 1, []⟩ := by decide

/-- The cache file on disk, as `_load_cache`/`_save_cache` see it:
missing (`os.path.exists` false), present but unreadable (`open` raises),
present but not valid JSON (`json.load` raises), or holding the JSON array
last written by `json.dump(self.cache, f)` (`_save_cache` only ever writes
the list `self.cache`, so the stored value is a list of entries). -/
inductive FileState (α : Type) where
  | missing
  | unreadable
  | badJson
  | stored (entries : List α)
deriving DecidableEq, Repr

/-- The fields of the `HTTPUploader` object that the queue logic reads or
writes, together with the cache file and the warning/error log streams.
`α` is the type of the cached `sensor_data` payloads (opaque to the queue
logic except for `==`). -/
structure UploaderState (α : Type) where
  enableCache : Bool
  retryTimes : ℕ
  cache : List α
  file : FileState α
  warnLog : List String
  errLog : List String
deriving DecidableEq, Repr

/-- Model of `HTTPUploader._save_cache` (lines 74-81): `json.dump(self.cache, f)`
inside try/except — on success the file now stores the queue, on failure
("保存缓存文件失败") an error is logged and nothing else happens; the
exception never propagates. -/
def saveCache {α : Type} (writeFail : Bool) (st : UploaderState α) :
    UploaderState α :=
  if writeFail then
    { st with errLog := st.errLog ++ ["failed to save cache file"] }
  else
    { st with file := .stored st.cache }

/-- Model of `HTTPUploader._load_cache` (lines 58-72): if the file does not exist,
`self.cache = []`; otherwise `open` + `json.load` inside try/except — on
success `self.cache` becomes the stored list, on any exception
("加载缓存文件失败") a warning is logged and `self.cache = []`.  The
exception never propagates. -/
def loadCache {α : Type} (st : UploaderState α) : UploaderState α :=
  match st.file with
  | .missing => { st with cache := [] }
  | .unreadable =>
    { st with cache := [], warnLog := st.warnLog ++ ["failed to load cache file"] }
  | .badJson =>
    { st with cache := [], warnLog := st.warnLog ++ ["failed to load cache file"] }
  | .stored l => { st with cache := l }

/-- Model of `HTTPUploader._add_to_cache` (lines 83-90): no-op unless caching is
enabled; otherwise `self.cache.append(sensor_data)` then `self._save_cache()`. -/
def addToCache {α : Type} (writeFail : Bool) (d : α) (st : UploaderState α) :
    UploaderState α :=
  if !st.enableCache then st
  else saveCache writeFail { st with cache := st.cache ++ [d] }

/-- The `for data in self.cache` loop of `_upload_cached_data` (lines
99-106): try each cached entry in order with a single no-retry attempt
(`self._upload_single(data, use_retry=False)`), collecting the successfully
uploaded ones into `uploaded` and breaking at the first failure.  Returns
`uploaded` and the oracle position after the last attempt made. -/
def drainGo {α : Type} (net : ℕ → AttemptOutcome) (retryTimes : ℕ) :
    ℕ → List α → List α × ℕ
  | idx, [] => ([], idx)
  | idx, d :: rest =>
    let r := uploadSingle net idx retryTimes false
    if r.success then
      let next := drainGo net retryTimes (idx + r.attempts) rest
      (d :: next.1, next.2)
    else
      ([], idx + r.attempts)

/-- Model of `HTTPUploader._upload_cached_data` (lines 92-114): return at once if the
queue is empty; otherwise run the drain loop, then
`for data in uploaded: self.cache.remove(data)` (Python `list.remove`:
delete the first element equal to `data`), then `self._save_cache()` if
anything was uploaded. -/
def uploadCachedData {α : Type} [DecidableEq α] (net : ℕ → AttemptOutcome)
    (writeFail : Bool) (idx : ℕ) (st : UploaderState α) :
    UploaderState α × ℕ :=
  if st.cache.isEmpty then (st, idx)
  else
    let res := drainGo net st.retryTimes idx st.cache
    let uploaded := res.1
    let st' := { st with cache := uploaded.foldl List.erase st.cache }
    if uploaded.isEmpty then (st', res.2) else (saveCache writeFail st', res.2)

/-- Model of `HTTPUploader.upload` (lines 249-270): one fresh delivery attempt with
retry; on failure with caching enabled, `_add_to_cache`; on success with a
non-empty queue, `_upload_cached_data`; return the fresh attempt's result.
The returned triple is (returned Bool, final state, next oracle position). -/
def upload {α : Type} [DecidableEq α] (net : ℕ → AttemptOutcome)
    (writeFail : Bool) (d : α) (idx : ℕ) (st : UploaderState α) :
    Bool × UploaderState α × ℕ :=
  let r := uploadSingle net idx st.retryTimes true
  let idx1 := idx + r.attempts
  let st1 := if !r.success && st.enableCache then addToCache writeFail d st else st
  if r.success && !st1.cache.isEmpty then
    let res := uploadCachedData net writeFail idx1 st1
    (r.success, res.1, res.2)
  else
    (r.success, st1, idx1)

/-- The cache-related part of `HTTPUploader.__init__` (lines 33-49):
`self.cache = []`, then `self._load_cache()` if `self.enable_cache`. -/
def initUploader {α : Type} (enableCache : Bool) (retryTimes : ℕ)
    (file : FileState α) : UploaderState α :=
  let st : UploaderState α :=
    { enableCache := enableCache, retryTimes := retryTimes, cache := [],
      file := file, warnLog := [], errLog := [] }
  if enableCache then loadCache st else st

/-- A run of the collection loop restricted to the uploader: one `upload`
call per produced reading-set, threading the state and the oracle position. -/
def runTicks {α : Type} [DecidableEq α] (net : ℕ → AttemptOutcome)
    (writeFail : Bool) : List α → ℕ → UploaderState α → UploaderState α × ℕ
  | [], idx, st => (st, idx)
  | d :: ds, idx, st =>
    let res := upload net writeFail d idx st
    runTicks net writeFail ds res.2.2 res.2.1

/-- Observer: the entries successfully acknowledged by the collector during
one `upload` call — the fresh entry if its delivery succeeded, followed by
the entries drained from the queue (each of which received a 200/ok
response to its own single attempt).  Recomputed from the same oracle and
state that `upload` consumes. -/
def tickDelivered {α : Type} (net : ℕ → AttemptOutcome) (d : α) (idx : ℕ)
    (st : UploaderState α) : List α :=
  let r := uploadSingle net idx st.retryTimes true
  if r.success then
    if st.cache.isEmpty then [d]
    else d :: (drainGo net st.retryTimes (idx + r.attempts) st.cache).1
  else []

/-- Observer: all entries acknowledged by the collector during a run, in
acknowledgement order. -/
def runDelivered {α : Type} [DecidableEq α] (net : ℕ → AttemptOutcome)
    (writeFail : Bool) : List α → ℕ → UploaderState α → List α
  | [], _, _ => []
  | d :: ds, idx, st =>
    let res := upload net writeFail d idx st
    tickDelivered net d idx st ++ runDelivered net writeFail ds res.2.2 res.2.1

/-- The number of leading queue entries whose single no-retry drain attempt
succeeds: `uploadCachedData` removes exactly this many entries from the
front of the queue. -/
def drainCount {α : Type} (net : ℕ → AttemptOutcome) (retryTimes : ℕ) :
    ℕ → List α → ℕ
  | _, [] => 0
  | idx, _ :: rest =>
    let r := uploadSingle net idx retryTimes false
    if r.success then drainCount net retryTimes (idx + r.attempts) rest + 1
    else 0

example :
    (upload (fun _ => .timeout) false (7 : ℕ) 0
        (initUploader true 3 .missing)).2.1.cache = [7] := by decide

example :
    (upload (fun n => if n ≤ 1 then .ok 0 else .timeout) false (9 : ℕ) 0
        { enableCache := true, retryTimes := 3, cache := [1, 2],
          file := .stored [1, 2], warnLog := [], errLog := [] }).2.1.cache
      = ([2] : List ℕ) := by decide

/-- The sensor values that `_upload_single` extracts from its `sensor_data`
argument (lines 150-179): `sensor_data.get('sensors', {}).get(name, {})
.get('value')` for each of the four sensors — `none` both when the key is
absent and when the stored value is `null`.  Numeric values are modelled as
exact rationals. -/
structure SensorData where
  timestamp : String
  temperature : Option ℚ
  humidity : Option ℚ
  pressure : Option ℚ
  light : Option ℚ
deriving DecidableEq, Repr

/-- Python `round(x, 1)`: round to one decimal digit.  (CPython rounds ties
to even while `round` here rounds ties up; the two agree except on exact
multiples of 0.05, and every bound proved below holds for either
tie-breaking rule.) -/
def round1 (q : ℚ) : ℚ := (round (10 * q) : ℤ) / 10

/-- The four `usv` sensor fields of the wire payload built by
`_upload_single` (lines 128-179).  `t` models `time.time() % 1 ∈ [0, 1)`.
A present sensor value passes through unchanged; an absent one is
backfilled: `round(22.0 + 2.0 * t, 1)` for temperature,
`round(53.0 + 4.0 * t, 1)` for humidity, `round(1012.0 + 2.0 * t, 1)` for
pressure, and `int(1150 + 100 * t)` for light (`int` truncates toward zero,
which on this nonnegative argument is the floor). -/
structure UsvFields where
  lng : ℚ
  lat : ℚ
  temp : ℚ
  humidity : ℚ
  pressure : ℚ
  light : ℚ
  status : String
deriving DecidableEq, Repr

/-- Build the `payload["usv"]` object from `sensor_data` (lines 128-179):
fixed placeholder position/status plus the four sensor values with their
fallbacks. -/
def buildUsv (sd : SensorData) (t : ℚ) : UsvFields :=
  { lng := 120.6621
    lat := 36.1182
    temp :=
      match sd.temperature with
      | some v => v
      | none => round1 (22 + 2 * t)
    humidity :=
      match sd.humidity with
      | some v => v
      | none => round1 (53 + 4 * t)
    pressure :=
      match sd.pressure with
      | some v => v
      | none => round1 (1012 + 2 * t)
    light :=
      match sd.light with
      | some v => v
      | none => ((⌊1150 + 100 * t⌋ : ℤ) : ℚ)
    status := "Active" }

example :
    (buildUsv ⟨"2024-01-01T12:00:00", some 22.8, some 54.7, some 1012.9,
        some 1180⟩ (1 / 3)).temp = 22.8 := rfl

example :
    (buildUsv ⟨"t", none, none, none, none⟩ (1 / 3)).temp = 22.7 := by
  show round1 (22 + 2 * (1 / 3)) = 22.7
  rw [round1, round_eq]
  norm_num

example :
    (buildUsv ⟨"t", none, none, none, none⟩ (1 / 3)).light = 1183 := by
  show ((⌊(1150 : ℚ) + 100 * (1 / 3)⌋ : ℤ) : ℚ) = 1183
  norm_num

/-! ### Lemmas about the retry loop of `_upload_single` -/

/-- With `use_retry=False` the call makes exactly one attempt, no sleep, and
succeeds iff that attempt's response is 200/ok. -/
theorem uploadSingle_noRetry (net : ℕ → AttemptOutcome) (idx rt : ℕ) :
    uploadSingle net idx rt false = ⟨isOkOutcome (net idx), 1, []⟩ := by
  cases h : net idx <;>
    simp [uploadSingle, attemptLoop, isOkOutcome, h]

theorem attemptLoop_attempts_pos (net : ℕ → AttemptOutcome) (ur : Bool)
    (ma a idx r : ℕ) (hr : 0 < r) :
    0 < (attemptLoop net ur ma a idx r).attempts := by
  cases r with
  | zero => omega
  | succ r' =>
    cases h : net idx <;> simp only [attemptLoop, h] <;> (try split) <;> simp

/-- Unfolding of one loop iteration whose attempt fails retryably. -/
theorem attemptLoop_retryable_step (net : ℕ → AttemptOutcome) (ur : Bool)
    (ma a idx r : ℕ) (h : isRetryable (net idx) = true) :
    attemptLoop net ur ma a idx (r + 1)
      = if ur && decide (a < ma) then
          ⟨(attemptLoop net ur ma (a + 1) (idx + 1) r).success,
           (attemptLoop net ur ma (a + 1) (idx + 1) r).attempts + 1,
           2 ^ a :: (attemptLoop net ur ma (a + 1) (idx + 1) r).sleeps⟩
        else ⟨false, 1, []⟩ := by
  cases hn : net idx with
  | ok ts => simp [isRetryable, hn] at h
  | reject e => simp [isRetryable, hn] at h
  | httpError s => simp only [attemptLoop, hn]
  | timeout => simp only [attemptLoop, hn]
  | connError => simp only [attemptLoop, hn]
  | otherError => simp only [attemptLoop, hn]

/-- Unfolding of one loop iteration whose attempt gets a 200/ok response. -/
theorem attemptLoop_ok_step (net : ℕ → AttemptOutcome) (ur : Bool)
    (ma a idx r : ℕ) (ts : ℤ) (h : net idx = .ok ts) :
    attemptLoop net ur ma a idx (r + 1) = ⟨true, 1, []⟩ := by
  simp [attemptLoop, h]

/-- Unfolding of one loop iteration whose attempt gets a 200 response whose
body reports an application-level error: the loop returns at once. -/
theorem attemptLoop_reject_step (net : ℕ → AttemptOutcome) (ur : Bool)
    (ma a idx r : ℕ) (e : String) (h : net idx = .reject e) :
    attemptLoop net ur ma a idx (r + 1) = ⟨false, 1, []⟩ := by
  simp [attemptLoop, h]

/-- Sleep schedule of the retry loop, started at attempt number `a`: a run
that makes `m` attempts sleeps exactly `2 ^ a, 2 ^ (a+1), …` between the
consecutive attempts, and never after the last one. -/
theorem attemptLoop_sleeps (net : ℕ → AttemptOutcome) (ma : ℕ) :
    ∀ r a idx, a + r = ma + 1 →
      (attemptLoop net true ma a idx r).sleeps
        = (List.range ((attemptLoop net true ma a idx r).attempts - 1)).map
            (fun k => 2 ^ (k + a)) := by
  intro r
  induction r with
  | zero => intro a idx _; simp [attemptLoop]
  | succ r' ih =>
    intro a idx hsum
    by_cases hro : isRetryable (net idx) = true
    · rw [attemptLoop_retryable_step net true ma a idx r' hro]
      by_cases ha : a < ma
      · have hr' : 0 < r' := by omega
        have hpos := attemptLoop_attempts_pos net true ma (a + 1) (idx + 1) r' hr'
        have hc : (true && decide (a < ma)) = true := by simpa using ha
        rw [if_pos hc]
        rw [ih (a + 1) (idx + 1) (by omega)]
        obtain ⟨m, hm⟩ : ∃ m,
            (attemptLoop net true ma (a + 1) (idx + 1) r').attempts = m + 1 :=
          ⟨_, (Nat.succ_pred_eq_of_pos hpos).symm⟩
        rw [hm]
        show 2 ^ a :: List.map (fun k => 2 ^ (k + (a + 1))) (List.range m)
          = List.map (fun k => 2 ^ (k + a)) (List.range (m + 1 + 1 - 1))
        rw [Nat.add_sub_cancel, List.range_succ_eq_map, List.map_cons,
          List.map_map]
        congr 1
        · rw [Nat.zero_add]
        · apply List.map_congr_left
          intro k _
          simp only [Function.comp_apply]
          congr 1
          omega
      · have hc : ¬((true && decide (a < ma)) = true) := by simpa using ha
        rw [if_neg hc]
        simp
    · cases hn : net idx with
      | ok ts => rw [attemptLoop_ok_step net true ma a idx r' ts hn]; simp
      | reject e => rw [attemptLoop_reject_step net true ma a idx r' e hn]; simp
      | httpError s => simp [isRetryable, hn] at hro
      | timeout => simp [isRetryable, hn] at hro
      | connError => simp [isRetryable, hn] at hro
      | otherError => simp [isRetryable, hn] at hro

theorem uploadSingle_retry_eq (net : ℕ → AttemptOutcome) (idx rt : ℕ) :
    uploadSingle net idx rt true = attemptLoop net true rt 1 idx rt := rfl

/-- A terminal rejection at 1-based attempt `j + 1`, preceded by retryable
failures, makes the loop return False after exactly `j + 1` attempts. -/
theorem attemptLoop_reject (net : ℕ → AttemptOutcome) (ma : ℕ) (e : String) :
    ∀ j a idx r, j + 1 ≤ r →
      (∀ m, m < j → isRetryable (net (idx + m)) = true) →
      net (idx + j) = .reject e →
      a + r = ma + 1 →
      (attemptLoop net true ma a idx r).success = false ∧
        (attemptLoop net true ma a idx r).attempts = j + 1 := by
  intro j
  induction j with
  | zero =>
    intro a idx r hr _ hrej _
    obtain ⟨r', rfl⟩ : ∃ r', r = r' + 1 := ⟨r - 1, by omega⟩
    rw [attemptLoop_reject_step net true ma a idx r' e (by simpa using hrej)]
    simp
  | succ j' ih =>
    intro a idx r hr hpre hrej hsum
    obtain ⟨r', rfl⟩ : ∃ r', r = r' + 1 := ⟨r - 1, by omega⟩
    have h0 : isRetryable (net idx) = true := by simpa using hpre 0 (by omega)
    rw [attemptLoop_retryable_step net true ma a idx r' h0]
    have ha : a < ma := by omega
    rw [if_pos (by simpa using ha)]
    have ihres := ih (a + 1) (idx + 1) r' (by omega)
      (fun m hm => by
        have := hpre (m + 1) (by omega)
        rw [show idx + 1 + m = idx + (m + 1) by omega]
        exact this)
      (by rw [show idx + 1 + j' = idx + (j' + 1) by omega]; exact hrej)
      (by omega)
    exact ⟨ihres.1, by simp [ihres.2]⟩

/-- If every attempt fails retryably, the loop runs its full budget of
attempts and returns False. -/
theorem attemptLoop_allRetryable (net : ℕ → AttemptOutcome) (ma : ℕ) :
    ∀ r a idx, (∀ k, k < r → isRetryable (net (idx + k)) = true) →
      a + r = ma + 1 →
      (attemptLoop net true ma a idx r).success = false ∧
        (attemptLoop net true ma a idx r).attempts = r := by
  intro r
  induction r with
  | zero => intro a idx _ _; simp [attemptLoop]
  | succ r' ih =>
    intro a idx hall hsum
    have h0 : isRetryable (net idx) = true := by simpa using hall 0 (by omega)
    rw [attemptLoop_retryable_step net true ma a idx r' h0]
    by_cases ha : a < ma
    · rw [if_pos (by simpa using ha)]
      have ihres := ih (a + 1) (idx + 1)
        (fun k hk => by
          have := hall (k + 1) (by omega)
          rw [show idx + 1 + k = idx + (k + 1) by omega]
          exact this)
        (by omega)
      exact ⟨ihres.1, by simp [ihres.2]⟩
    · have hr0 : r' = 0 := by omega
      subst hr0
      rw [if_neg (by simpa using ha)]
      simp

/-- Claim C3 (terminal vs retryable): for a delivery with retry enabled
(`_upload_single(..., use_retry=True)` with budget `rt`), (a) if the 1-based
attempt `j` (within the budget) receives a 200 response whose JSON body
reports `ok` false, after earlier attempts that failed retryably, then the
call returns failure after exactly `j` attempts — no further attempts; and
(b) if every attempt within the budget hits a connection error or a
timeout, the call makes exactly the configured `rt` attempts and returns
failure. -/
theorem uplink_terminal_vs_retryable (net : ℕ → AttemptOutcome)
    (rt idx j : ℕ) (e : String) :
    (1 ≤ j → j ≤ rt →
      (∀ m, m + 1 < j → isRetryable (net (idx + m)) = true) →
      net (idx + (j - 1)) = AttemptOutcome.reject e →
      (uploadSingle net idx rt true).success = false ∧
        (uploadSingle net idx rt true).attempts = j)
  ∧ ((∀ k, k < rt →
        net (idx + k) = AttemptOutcome.timeout ∨
          net (idx + k) = AttemptOutcome.connError) →
      (uploadSingle net idx rt true).success = false ∧
        (uploadSingle net idx rt true).attempts = rt) := by
  constructor
  · intro hj hjrt hpre hrej
    obtain ⟨j', rfl⟩ : ∃ j', j = j' + 1 := ⟨j - 1, by omega⟩
    rw [uploadSingle_retry_eq]
    have := attemptLoop_reject net rt e j' 1 idx rt (by omega)
      (fun m hm => hpre m (by omega)) (by simpa using hrej) (by omega)
    simpa using this
  · intro hall
    rw [uploadSingle_retry_eq]
    exact attemptLoop_allRetryable net rt rt 1 idx
      (fun k hk => by
        rcases hall k hk with h | h <;> simp [isRetryable, h])
      (by omega)

/-- Witness for C3: a server that rejects the payload (`ok:false`) stops the
retry-enabled call after one attempt; a server that always times out is
tried exactly the configured 3 times. -/
theorem uplink_terminal_vs_retryable_witness :
    ((uploadSingle (fun _ => AttemptOutcome.reject "bad payload") 0 3
        true).success = false ∧
      (uploadSingle (fun _ => AttemptOutcome.reject "bad payload") 0 3
        true).attempts = 1)
  ∧ ((uploadSingle (fun _ => AttemptOutcome.timeout) 0 3 true).success = false ∧
      (uploadSingle (fun _ => AttemptOutcome.timeout) 0 3 true).attempts = 3) :=
  ⟨(uplink_terminal_vs_retryable (fun _ => AttemptOutcome.reject "bad payload")
      3 0 1 "bad payload").1 (by omega) (by omega)
      (fun m hm => absurd hm (by omega)) rfl,
   (uplink_terminal_vs_retryable (fun _ => AttemptOutcome.timeout)
      3 0 1 "bad payload").2 (fun k _ => Or.inl rfl)⟩

/-- Claim C4 (backoff schedule): with retry enabled, a call that makes `m`
attempts sleeps exactly `2^1, 2^2, …, 2^(m-1)` seconds — i.e. the wait
inserted between attempt `k` and attempt `k+1` (which exists exactly when
attempt `k` failed retryably within the budget) is `2^k` seconds, and no
wait is inserted after the final attempt. -/
theorem uplink_backoff_schedule (net : ℕ → AttemptOutcome) (rt idx : ℕ) :
    (uploadSingle net idx rt true).sleeps
      = (List.range ((uploadSingle net idx rt true).attempts - 1)).map
          (fun k => 2 ^ (k + 1)) := by
  rw [uploadSingle_retry_eq]
  exact attemptLoop_sleeps net rt rt 1 idx (by omega)

/-! ### Lemmas about the spill queue operations -/

theorem saveCache_cache {α : Type} (wf : Bool) (st : UploaderState α) :
    (saveCache wf st).cache = st.cache := by
  cases wf <;> rfl

theorem saveCache_enableCache {α : Type} (wf : Bool) (st : UploaderState α) :
    (saveCache wf st).enableCache = st.enableCache := by
  cases wf <;> rfl

theorem saveCache_retryTimes {α : Type} (wf : Bool) (st : UploaderState α) :
    (saveCache wf st).retryTimes = st.retryTimes := by
  cases wf <;> rfl

theorem saveCache_false_file {α : Type} (st : UploaderState α) :
    (saveCache false st).file = .stored st.cache := rfl

theorem saveCache_true_file {α : Type} (st : UploaderState α) :
    (saveCache true st).file = st.file := rfl

theorem addToCache_cache {α : Type} (wf : Bool) (d : α) (st : UploaderState α)
    (h : st.enableCache = true) :
    (addToCache wf d st).cache = st.cache ++ [d] := by
  simp [addToCache, h, saveCache_cache]

theorem addToCache_enableCache {α : Type} (wf : Bool) (d : α)
    (st : UploaderState α) :
    (addToCache wf d st).enableCache = st.enableCache := by
  cases h : st.enableCache <;> simp [addToCache, h, saveCache_enableCache]

theorem addToCache_retryTimes {α : Type} (wf : Bool) (d : α)
    (st : UploaderState α) :
    (addToCache wf d st).retryTimes = st.retryTimes := by
  cases h : st.enableCache <;> simp [addToCache, h, saveCache_retryTimes]

theorem foldl_erase_take {α : Type} [DecidableEq α] :
    ∀ (k : ℕ) (l : List α), List.foldl List.erase l (l.take k) = l.drop k := by
  intro k
  induction k with
  | zero => intro l; simp
  | succ k' ih =>
    intro l
    cases l with
    | nil => simp
    | cons a l' =>
      simp only [List.take_succ_cons, List.foldl_cons, List.erase_cons_head,
        List.drop_succ_cons]
      exact ih l'

theorem drainGo_cons {α : Type} (net : ℕ → AttemptOutcome) (rt idx : ℕ)
    (d : α) (rest : List α) :
    drainGo net rt idx (d :: rest)
      = if isOkOutcome (net idx) then
          (d :: (drainGo net rt (idx + 1) rest).1,
            (drainGo net rt (idx + 1) rest).2)
        else ([], idx + 1) := by
  simp only [drainGo, uploadSingle_noRetry]

theorem drainCount_cons {α : Type} (net : ℕ → AttemptOutcome) (rt idx : ℕ)
    (d : α) (rest : List α) :
    drainCount net rt idx (d :: rest)
      = if isOkOutcome (net idx) then
          drainCount net rt (idx + 1) (rest : List α) + 1
        else 0 := by
  simp only [drainCount, uploadSingle_noRetry]

/-- The entries collected by the drain loop form the longest all-successful
run at the front of the queue. -/
theorem drainGo_fst_take {α : Type} (net : ℕ → AttemptOutcome) (rt : ℕ) :
    ∀ (l : List α) (idx : ℕ),
      (drainGo net rt idx l).1 = l.take (drainCount net rt idx l) := by
  intro l
  induction l with
  | nil => intro idx; simp [drainGo, drainCount]
  | cons d rest ih =>
    intro idx
    rw [drainGo_cons, drainCount_cons]
    cases h : isOkOutcome (net idx) <;> simp [h, ih]

theorem drainCount_le {α : Type} (net : ℕ → AttemptOutcome) (rt : ℕ) :
    ∀ (l : List α) (idx : ℕ), drainCount net rt idx l ≤ l.length := by
  intro l
  induction l with
  | nil => intro idx; simp [drainCount]
  | cons d rest ih =>
    intro idx
    rw [drainCount_cons]
    cases h : isOkOutcome (net idx) <;> simp [h]
    exact ih (idx + 1)

/-- Every entry inside the drained run received a successful single
no-retry delivery of its own. -/
theorem drainCount_ok {α : Type} (net : ℕ → AttemptOutcome) (rt : ℕ) :
    ∀ (l : List α) (idx i : ℕ), i < drainCount net rt idx l →
      (uploadSingle net (idx + i) rt false).success = true := by
  intro l
  induction l with
  | nil => intro idx i hi; simp [drainCount] at hi
  | cons d rest ih =>
    intro idx i hi
    rw [drainCount_cons] at hi
    cases h : isOkOutcome (net idx) with
    | false => simp [h] at hi
    | true =>
      rw [if_pos h] at hi
      cases i with
      | zero => simpa [uploadSingle_noRetry] using h
      | succ i' =>
        have := ih (idx + 1) i' (by omega)
        rw [show idx + (i' + 1) = idx + 1 + i' by omega]
        exact this

/-- The drain `_upload_cached_data` removes exactly the drained all-successful run
from the front of the queue and keeps the rest in order. -/
theorem uploadCachedData_cache {α : Type} [DecidableEq α]
    (net : ℕ → AttemptOutcome) (wf : Bool) (idx : ℕ) (st : UploaderState α) :
    (uploadCachedData net wf idx st).1.cache
      = st.cache.drop (drainCount net st.retryTimes idx st.cache) := by
  unfold uploadCachedData
  by_cases h : st.cache.isEmpty
  · rw [if_pos h]
    rw [List.isEmpty_iff] at h
    simp [h]
  · rw [if_neg h]
    simp only [drainGo_fst_take]
    split <;> simp [saveCache_cache, foldl_erase_take]

theorem uploadCachedData_enableCache {α : Type} [DecidableEq α]
    (net : ℕ → AttemptOutcome) (wf : Bool) (idx : ℕ) (st : UploaderState α) :
    (uploadCachedData net wf idx st).1.enableCache = st.enableCache := by
  unfold uploadCachedData
  split
  · rfl
  · dsimp only
    split <;> simp [saveCache_enableCache]

theorem uploadCachedData_retryTimes {α : Type} [DecidableEq α]
    (net : ℕ → AttemptOutcome) (wf : Bool) (idx : ℕ) (st : UploaderState α) :
    (uploadCachedData net wf idx st).1.retryTimes = st.retryTimes := by
  unfold uploadCachedData
  split
  · rfl
  · dsimp only
    split <;> simp [saveCache_retryTimes]


theorem uploadCachedData_idx {α : Type} [DecidableEq α]
    (net : ℕ → AttemptOutcome) (wf : Bool) (idx : ℕ) (st : UploaderState α) :
    (uploadCachedData net wf idx st).2
      = if st.cache.isEmpty then idx
        else (drainGo net st.retryTimes idx st.cache).2 := by
  unfold uploadCachedData
  split
  · rfl
  · dsimp only
    split <;> rfl

/-! ### Lemmas about `upload` -/

theorem upload_fst {α : Type} [DecidableEq α] (net : ℕ → AttemptOutcome)
    (wf : Bool) (d : α) (idx : ℕ) (st : UploaderState α) :
    (upload net wf d idx st).1
      = (uploadSingle net idx st.retryTimes true).success := by
  unfold upload
  dsimp only
  split <;> split <;> rfl

theorem upload_of_fail {α : Type} [DecidableEq α] (net : ℕ → AttemptOutcome)
    (wf : Bool) (d : α) (idx : ℕ) (st : UploaderState α)
    (h : (uploadSingle net idx st.retryTimes true).success = false) :
    upload net wf d idx st
      = (false, (if st.enableCache then addToCache wf d st else st),
          idx + (uploadSingle net idx st.retryTimes true).attempts) := by
  unfold upload
  simp only [h, Bool.not_false, Bool.true_and, Bool.false_and, Bool.false_eq_true,
    if_false]

theorem upload_of_success_empty {α : Type} [DecidableEq α]
    (net : ℕ → AttemptOutcome) (wf : Bool) (d : α) (idx : ℕ)
    (st : UploaderState α)
    (h : (uploadSingle net idx st.retryTimes true).success = true)
    (hc : st.cache = []) :
    upload net wf d idx st
      = (true, st, idx + (uploadSingle net idx st.retryTimes true).attempts) := by
  unfold upload
  simp [h, hc]

theorem upload_of_success_drain {α : Type} [DecidableEq α]
    (net : ℕ → AttemptOutcome) (wf : Bool) (d : α) (idx : ℕ)
    (st : UploaderState α)
    (h : (uploadSingle net idx st.retryTimes true).success = true)
    (hc : st.cache ≠ []) :
    upload net wf d idx st
      = (true,
          (uploadCachedData net wf
            (idx + (uploadSingle net idx st.retryTimes true).attempts) st).1,
          (uploadCachedData net wf
            (idx + (uploadSingle net idx st.retryTimes true).attempts) st).2) := by
  unfold upload
  simp [h, hc]

theorem drainGo_nil {α : Type} (net : ℕ → AttemptOutcome) (rt idx : ℕ) :
    drainGo net rt idx ([] : List α) = ([], idx) := rfl

theorem drainCount_nil {α : Type} (net : ℕ → AttemptOutcome) (rt idx : ℕ) :
    drainCount net rt idx ([] : List α) = 0 := rfl

/-- Claim C5 (FIFO-on-drain): with the queue holding `[a, b, c]` (oldest
first), the drain gives `a` a single no-retry attempt first; `b` is
attempted only if `a`'s attempt succeeded and `c` only if `b`'s succeeded
(the returned oracle position counts exactly the attempts made, one per
entry reached, stopping at the first failure); a failure at `b` leaves
exactly `[b, c]` queued, with `a` removed and the order preserved. -/
theorem fifo_on_drain {α : Type} [DecidableEq α] (net : ℕ → AttemptOutcome)
    (wf : Bool) (idx : ℕ) (a b c : α) (st : UploaderState α)
    (hc : st.cache = [a, b, c]) :
    (isOkOutcome (net idx) = false →
      (uploadCachedData net wf idx st).1.cache = [a, b, c] ∧
        (uploadCachedData net wf idx st).2 = idx + 1)
  ∧ (isOkOutcome (net idx) = true → isOkOutcome (net (idx + 1)) = false →
      (uploadCachedData net wf idx st).1.cache = [b, c] ∧
        (uploadCachedData net wf idx st).2 = idx + 2)
  ∧ (isOkOutcome (net idx) = true → isOkOutcome (net (idx + 1)) = true →
      isOkOutcome (net (idx + 2)) = false →
      (uploadCachedData net wf idx st).1.cache = [c] ∧
        (uploadCachedData net wf idx st).2 = idx + 3)
  ∧ (isOkOutcome (net idx) = true → isOkOutcome (net (idx + 1)) = true →
      isOkOutcome (net (idx + 2)) = true →
      (uploadCachedData net wf idx st).1.cache = [] ∧
        (uploadCachedData net wf idx st).2 = idx + 3) := by
  refine ⟨?_, ?_, ?_, ?_⟩
  · intro h1
    rw [uploadCachedData_cache, uploadCachedData_idx, hc]
    simp [drainCount_cons, drainGo_cons, h1]
  · intro h1 h2
    rw [uploadCachedData_cache, uploadCachedData_idx, hc]
    simp [drainCount_cons, drainGo_cons, h1, h2]
  · intro h1 h2 h3
    have h2' : isOkOutcome (net (idx + 1)) = true := h2
    have h3' : isOkOutcome (net (idx + 1 + 1)) = false := h3
    rw [uploadCachedData_cache, uploadCachedData_idx, hc]
    simp [drainCount_cons, drainGo_cons, drainGo_nil, drainCount_nil, h1, h2', h3']
  · intro h1 h2 h3
    have h2' : isOkOutcome (net (idx + 1)) = true := h2
    have h3' : isOkOutcome (net (idx + 1 + 1)) = true := h3
    rw [uploadCachedData_cache, uploadCachedData_idx, hc]
    simp [drainCount_cons, drainGo_cons, drainGo_nil, drainCount_nil, h1, h2', h3']

/-- Witness for C5: with queue `[10, 20, 30]`, first entry succeeding and
second failing, the drain leaves `[20, 30]` and made exactly two attempts. -/
theorem fifo_on_drain_witness :
    (uploadCachedData (fun n => if n = 0 then AttemptOutcome.ok 0
          else AttemptOutcome.timeout) false 0
        (⟨true, 3, [10, 20, 30], .stored [10, 20, 30], [], []⟩ :
          UploaderState ℕ)).1.cache = [20, 30]
  ∧ (uploadCachedData (fun n => if n = 0 then AttemptOutcome.ok 0
          else AttemptOutcome.timeout) false 0
        (⟨true, 3, [10, 20, 30], .stored [10, 20, 30], [], []⟩ :
          UploaderState ℕ)).2 = 2 :=
  (fifo_on_drain (fun n => if n = 0 then AttemptOutcome.ok 0
      else AttemptOutcome.timeout) false 0 10 20 30
    (⟨true, 3, [10, 20, 30], .stored [10, 20, 30], [], []⟩ : UploaderState ℕ)
    rfl).2.1 rfl rfl

/-- Counterexample to claim C2 as stated: with caching enabled and retry
budget 3, a delivery that the server terminally rejects (`ok:false`) on the
very first attempt ends after exactly 1 attempt — before the retry budget
is exhausted — and the entry IS nevertheless appended to the spill queue by
`upload`. -/
theorem spill_append_terminal_counterexample :
    (uploadSingle (fun _ => AttemptOutcome.reject "bad payload") 0 3
        true).attempts = 1
  ∧ (uploadSingle (fun _ => AttemptOutcome.reject "bad payload") 0 3
        true).success = false
  ∧ (initUploader (α := ℕ) true 3 .missing).retryTimes = 3
  ∧ (upload (fun _ => AttemptOutcome.reject "bad payload") false (0 : ℕ) 0
      (initUploader true 3 .missing)).2.1.cache = [0] := by decide

/-- Claim C2 amended: with caching enabled, an entry is appended to the
spill queue after ANY failed delivery — whether the retry budget was
exhausted or the server terminally rejected the payload before the budget
was used up — and entries are removed only after a confirmed successful
delivery (each removed entry is one of the leading queue entries whose own
single drain attempt returned success). -/
theorem spill_append_and_remove {α : Type} [DecidableEq α]
    (net : ℕ → AttemptOutcome) (wf : Bool) (d : α) (idx : ℕ)
    (st : UploaderState α) (he : st.enableCache = true) :
    ((uploadSingle net idx st.retryTimes true).success = false →
      (upload net wf d idx st).2.1.cache = st.cache ++ [d])
  ∧ ((uploadSingle net idx st.retryTimes true).success = true →
      (upload net wf d idx st).2.1.cache
        = st.cache.drop
            (drainCount net st.retryTimes
              (idx + (uploadSingle net idx st.retryTimes true).attempts)
              st.cache)
      ∧ ∀ i, i < drainCount net st.retryTimes
            (idx + (uploadSingle net idx st.retryTimes true).attempts)
            st.cache →
          (uploadSingle net
              (idx + (uploadSingle net idx st.retryTimes true).attempts + i)
              st.retryTimes false).success = true) := by
  constructor
  · intro h
    rw [upload_of_fail net wf d idx st h]
    dsimp only
    rw [if_pos he]
    exact addToCache_cache wf d st he
  · intro h
    by_cases hc : st.cache = []
    · rw [upload_of_success_empty net wf d idx st h hc]
      dsimp only
      refine ⟨by rw [hc]; simp, ?_⟩
      intro i hi
      rw [hc, drainCount_nil] at hi
      omega
    · rw [upload_of_success_drain net wf d idx st h hc]
      dsimp only
      refine ⟨uploadCachedData_cache net wf _ st, ?_⟩
      intro i hi
      exact drainCount_ok net st.retryTimes st.cache _ i hi

/-- Witness for the amended C2: a terminally rejected entry is appended
(queue becomes `[5]`), and with the queue `[1, 2]` and an always-ok server
a fresh success drains and removes both entries. -/
theorem spill_append_and_remove_witness :
    (upload (fun _ => AttemptOutcome.reject "bad payload") false (5 : ℕ) 0
        (initUploader true 3 .missing)).2.1.cache = [5]
  ∧ (upload (fun _ => AttemptOutcome.ok 0) false (5 : ℕ) 0
      (⟨true, 3, [1, 2], .stored [1, 2], [], []⟩ :
        UploaderState ℕ)).2.1.cache = [] :=
  ⟨((spill_append_and_remove (fun _ => AttemptOutcome.reject "bad payload")
        false (5 : ℕ) 0 (initUploader true 3 .missing) rfl).1
      (by decide)).trans (by decide),
   ((spill_append_and_remove (fun _ => AttemptOutcome.ok 0) false (5 : ℕ) 0
        (⟨true, 3, [1, 2], .stored [1, 2], [], []⟩ : UploaderState ℕ)
        rfl).2 (by decide)).1.trans (by decide)⟩

/-- Claim C10 (implicit): the Bool returned by `upload` is exactly the
fresh delivery attempt's result, for every network behaviour — so no drain
outcome can change it; when the fresh attempt fails the queue is only
appended to (no drain runs), and when it succeeds with an empty queue the
state is untouched and no further network attempt is consumed (the returned
oracle position accounts only for the fresh attempts). -/
theorem upload_return_reflects_fresh {α : Type} [DecidableEq α]
    (net : ℕ → AttemptOutcome) (wf : Bool) (d : α) (idx : ℕ)
    (st : UploaderState α) :
    (upload net wf d idx st).1
      = (uploadSingle net idx st.retryTimes true).success
  ∧ ((uploadSingle net idx st.retryTimes true).success = false →
      (upload net wf d idx st).2.1.cache
        = if st.enableCache then st.cache ++ [d] else st.cache)
  ∧ ((uploadSingle net idx st.retryTimes true).success = true →
      st.cache = [] →
      (upload net wf d idx st).2.1 = st ∧
        (upload net wf d idx st).2.2
          = idx + (uploadSingle net idx st.retryTimes true).attempts) := by
  refine ⟨upload_fst net wf d idx st, ?_, ?_⟩
  · intro h
    rw [upload_of_fail net wf d idx st h]
    dsimp only
    by_cases he : st.enableCache = true
    · rw [if_pos he, if_pos he]
      exact addToCache_cache wf d st he
    · rw [if_neg he, if_neg he]
  · intro h hc
    rw [upload_of_success_empty net wf d idx st h hc]
    exact ⟨rfl, rfl⟩

/-- Witness for C10: an all-timeout run returns the fresh failure and only
appends; an all-ok run on an empty queue returns success, leaves the state
unchanged and consumes exactly one attempt. -/
theorem upload_return_reflects_fresh_witness :
    (upload (fun _ => AttemptOutcome.timeout) false (5 : ℕ) 0
        (initUploader true 3 .missing)).2.1.cache = [5]
  ∧ (upload (fun _ => AttemptOutcome.ok 0) false (5 : ℕ) 0
        (initUploader true 3 .missing)).2.1 = initUploader true 3 .missing
  ∧ (upload (fun _ => AttemptOutcome.ok 0) false (5 : ℕ) 0
        (initUploader true 3 .missing)).2.2 = 1 :=
  ⟨((upload_return_reflects_fresh (fun _ => AttemptOutcome.timeout) false
        (5 : ℕ) 0 (initUploader true 3 .missing)).2.1 (by decide)).trans
      (by decide),
   ((upload_return_reflects_fresh (fun _ => AttemptOutcome.ok 0) false
        (5 : ℕ) 0 (initUploader true 3 .missing)).2.2 (by decide)
      (by decide)).1,
   ((upload_return_reflects_fresh (fun _ => AttemptOutcome.ok 0) false
        (5 : ℕ) 0 (initUploader true 3 .missing)).2.2 (by decide)
      (by decide)).2⟩

/-- Claim C9 (soft-failing load): `_load_cache` is a total function of the
store state — it never raises and never aborts: a missing store file leaves
the queue empty without a warning; an existing but unreadable file, or a
file whose contents are not valid JSON, logs a warning and leaves the queue
empty; a readable valid store reconstructs exactly the stored list. -/
theorem load_cache_fails_soft {α : Type} (st : UploaderState α) :
    ((loadCache { st with file := .missing }).cache = [] ∧
      (loadCache { st with file := .missing }).warnLog = st.warnLog)
  ∧ ((loadCache { st with file := .unreadable }).cache = [] ∧
      (loadCache { st with file := .unreadable }).warnLog
        = st.warnLog ++ ["failed to load cache file"])
  ∧ ((loadCache { st with file := .badJson }).cache = [] ∧
      (loadCache { st with file := .badJson }).warnLog
        = st.warnLog ++ ["failed to load cache file"])
  ∧ (∀ l : List α, (loadCache { st with file := .stored l }).cache = l) :=
  ⟨⟨rfl, rfl⟩, ⟨rfl, rfl⟩, ⟨rfl, rfl⟩, fun _ => rfl⟩

/-- Claim C6 (idempotent reload): saving a queue `[X, Y]` with
`_save_cache` and then constructing a fresh uploader over the resulting
file (as after a process restart, whose `__init__` runs `_load_cache`)
yields a queue equal to `[X, Y]`: same number of entries, same order, and
— `SensorData` equality being field-wise — the same field values. -/
theorem save_load_roundtrip (X Y : SensorData) (rt : ℕ)
    (st : UploaderState SensorData) :
    (initUploader true rt
        (saveCache false { st with cache := [X, Y] }).file).cache
      = [X, Y] := rfl

/-- Counterexample to claim C7's "the failure is reported to the caller":
when the persistence write fails, the entry is in memory and the failure is
logged, but the file provably missed the update while everything returned
to the caller — in particular the Bool `upload` hands back — is identical
to the run where the write succeeded.  Nothing is reported to any caller;
the failure is visible only in the error log. -/
theorem append_write_failure_counterexample :
    (addToCache true (5 : ℕ) (initUploader true 3 .missing)).cache = [5]
  ∧ (addToCache true (5 : ℕ) (initUploader true 3 .missing)).file = .missing
  ∧ (addToCache true (5 : ℕ) (initUploader true 3 .missing)).errLog
      = ["failed to save cache file"]
  ∧ (upload (fun _ => AttemptOutcome.timeout) true (5 : ℕ) 0
        (initUploader true 3 .missing)).1
      = (upload (fun _ => AttemptOutcome.timeout) false (5 : ℕ) 0
          (initUploader true 3 .missing)).1 := by decide

/-- Claim C7 amended: with caching enabled, `_add_to_cache` appends the
entry at the tail of the in-memory queue and synchronously attempts to
persist the full queue before returning; if the persistence write
succeeds the file now stores the appended queue; if it fails, the failure
is logged at error level but NOT reported to the caller (the operation
returns normally, the file is left unchanged), the process does not crash,
and the in-memory queue still correctly contains the entry. -/
theorem append_durability {α : Type} (wf : Bool) (d : α)
    (st : UploaderState α) (he : st.enableCache = true) :
    (addToCache wf d st).cache = st.cache ++ [d]
  ∧ (wf = false → (addToCache wf d st).file = .stored (st.cache ++ [d]))
  ∧ (wf = true → (addToCache wf d st).file = st.file
      ∧ (addToCache wf d st).errLog
          = st.errLog ++ ["failed to save cache file"]) := by
  refine ⟨addToCache_cache wf d st he, ?_, ?_⟩
  · rintro rfl
    simp [addToCache, he, saveCache]
  · rintro rfl
    constructor <;> simp [addToCache, he, saveCache]

/-- Witness for the amended C7: a failing write leaves the entry in memory
and an error in the log. -/
theorem append_durability_witness :
    (addToCache true (7 : ℕ) (initUploader true 3 .missing)).cache = [7]
  ∧ (addToCache true (7 : ℕ) (initUploader true 3 .missing)).errLog
      = ["failed to save cache file"] := by
  have h := append_durability true (7 : ℕ)
    (initUploader (α := ℕ) true 3 .missing) rfl
  exact ⟨h.1.trans (by decide), ((h.2.2 rfl).2).trans (by decide)⟩

/-- Bounds for Python `round(x, 1)` of a value known to within a tenth-grid
window: if `lo ≤ 10q` and `10q + 1/2 < hi + 1` then the rounded value lies
in `[lo/10, hi/10]`. -/
theorem round1_bounds (q : ℚ) (lo hi : ℤ) (h1 : (lo : ℚ) ≤ 10 * q)
    (h2 : 10 * q + 1 / 2 < (hi : ℚ) + 1) :
    (lo : ℚ) / 10 ≤ round1 q ∧ round1 q ≤ (hi : ℚ) / 10 := by
  rw [round1, round_eq]
  have hl : lo ≤ ⌊10 * q + 1 / 2⌋ := Int.le_floor.mpr (by linarith)
  have hh : ⌊10 * q + 1 / 2⌋ < hi + 1 := Int.floor_lt.mpr (by push_cast; linarith)
  have hh' : ⌊10 * q + 1 / 2⌋ ≤ hi := by omega
  have hlq : (lo : ℚ) ≤ (⌊10 * q + 1 / 2⌋ : ℚ) := by exact_mod_cast hl
  have hhq : ((⌊10 * q + 1 / 2⌋ : ℤ) : ℚ) ≤ (hi : ℚ) := by exact_mod_cast hh'
  constructor
  · linarith
  · linarith

/-- Claim C8 (missing-sensor fallback): for every input and every
`time.time() % 1` value `t ∈ [0, 1)`, the wire payload's four `usv` sensor
fields are always populated (the model's fields are total rationals, never
null): a present sensor value passes through unchanged, and an absent one
is backfilled inside the documented narrow window — temperature in
`[22, 24]`, humidity in `[53, 57]`, pressure in `[1012, 1014]`, and light
an integer in `[1150, 1250]`. -/
theorem payload_fallback_bounds (sd : SensorData) (t : ℚ) (h0 : 0 ≤ t)
    (h1 : t < 1) :
    ((∀ v, sd.temperature = some v → (buildUsv sd t).temp = v)
      ∧ (sd.temperature = none →
          22 ≤ (buildUsv sd t).temp ∧ (buildUsv sd t).temp ≤ 24))
  ∧ ((∀ v, sd.humidity = some v → (buildUsv sd t).humidity = v)
      ∧ (sd.humidity = none →
          53 ≤ (buildUsv sd t).humidity ∧ (buildUsv sd t).humidity ≤ 57))
  ∧ ((∀ v, sd.pressure = some v → (buildUsv sd t).pressure = v)
      ∧ (sd.pressure = none →
          1012 ≤ (buildUsv sd t).pressure ∧ (buildUsv sd t).pressure ≤ 1014))
  ∧ ((∀ v, sd.light = some v → (buildUsv sd t).light = v)
      ∧ (sd.light = none →
          ∃ n : ℤ, (buildUsv sd t).light = (n : ℚ) ∧
            1150 ≤ n ∧ n ≤ 1250)) := by
  refine ⟨⟨?_, ?_⟩, ⟨?_, ?_⟩, ⟨?_, ?_⟩, ⟨?_, ?_⟩⟩
  · intro v hv; simp [buildUsv, hv]
  · intro hn
    simp only [buildUsv, hn]
    have h := round1_bounds (22 + 2 * t) 220 240 (by push_cast; linarith)
      (by push_cast; linarith)
    constructor
    · have := h.1; norm_num at this ⊢; linarith
    · have := h.2; norm_num at this ⊢; linarith
  · intro v hv; simp [buildUsv, hv]
  · intro hn
    simp only [buildUsv, hn]
    have h := round1_bounds (53 + 4 * t) 530 570 (by push_cast; linarith)
      (by push_cast; linarith)
    constructor
    · have := h.1; norm_num at this ⊢; linarith
    · have := h.2; norm_num at this ⊢; linarith
  · intro v hv; simp [buildUsv, hv]
  · intro hn
    simp only [buildUsv, hn]
    have h := round1_bounds (1012 + 2 * t) 10120 10140 (by push_cast; linarith)
      (by push_cast; linarith)
    constructor
    · have := h.1; norm_num at this ⊢; linarith
    · have := h.2; norm_num at this ⊢; linarith
  · intro v hv; simp [buildUsv, hv]
  · intro hn
    simp only [buildUsv, hn]
    refine ⟨⌊1150 + 100 * t⌋, rfl, ?_, ?_⟩
    · exact Int.le_floor.mpr (by push_cast; linarith)
    · have := Int.floor_lt.mpr
        (show (1150 : ℚ) + 100 * t < ((1250 : ℤ) : ℚ) by push_cast; linarith)
      omega

/-- Witness for C8: at `t = 1/2` the temperature fallback lies in
`[22, 24]` and a present reading of `22.8` passes through unchanged. -/
theorem payload_fallback_bounds_witness :
    (22 ≤ (buildUsv ⟨"t", none, none, none, none⟩ (1 / 2)).temp
      ∧ (buildUsv ⟨"t", none, none, none, none⟩ (1 / 2)).temp ≤ 24)
  ∧ (buildUsv ⟨"t", some 22.8, none, none, none⟩ (1 / 2)).temp = 22.8 :=
  ⟨(payload_fallback_bounds ⟨"t", none, none, none, none⟩ (1 / 2)
      (by norm_num) (by norm_num)).1.2 rfl,
   (payload_fallback_bounds ⟨"t", some 22.8, none, none, none⟩ (1 / 2)
      (by norm_num) (by norm_num)).1.1 22.8 rfl⟩

/-! ### Infrastructure for the no-loss run theorem (C1) -/

/-- The queue that `_load_cache` would reconstruct from a given file state. -/
def cacheOfFile {α : Type} : FileState α → List α
  | .stored l => l
  | _ => []

theorem loadCache_cache_eq {α : Type} (st : UploaderState α) :
    (loadCache st).cache = cacheOfFile st.file := by
  cases h : st.file <;> simp [loadCache, cacheOfFile, h]

theorem initUploader_cache {α : Type} (rt : ℕ) (f : FileState α) :
    (initUploader true rt f).cache = cacheOfFile f := by
  cases f <;> rfl

theorem initUploader_file {α : Type} (rt : ℕ) (f : FileState α) :
    (initUploader true rt f).file = f := by
  cases f <;> rfl

theorem initUploader_enableCache {α : Type} (rt : ℕ) (f : FileState α) :
    (initUploader true rt f).enableCache = true := by
  cases f <;> rfl

theorem addToCache_fileMatch {α : Type} (d : α) (st : UploaderState α)
    (h : cacheOfFile st.file = st.cache) :
    cacheOfFile (addToCache false d st).file = (addToCache false d st).cache := by
  unfold addToCache
  split
  · exact h
  · rfl

theorem uploadCachedData_fileMatch {α : Type} [DecidableEq α]
    (net : ℕ → AttemptOutcome) (idx : ℕ) (st : UploaderState α)
    (h : cacheOfFile st.file = st.cache) :
    cacheOfFile (uploadCachedData net false idx st).1.file
      = (uploadCachedData net false idx st).1.cache := by
  unfold uploadCachedData
  split
  · exact h
  · dsimp only
    split
    · rename_i hu
      rw [List.isEmpty_iff] at hu
      rw [hu]
      simpa using h
    · rfl

theorem upload_enableCache {α : Type} [DecidableEq α]
    (net : ℕ → AttemptOutcome) (wf : Bool) (d : α) (idx : ℕ)
    (st : UploaderState α) :
    (upload net wf d idx st).2.1.enableCache = st.enableCache := by
  by_cases hs : (uploadSingle net idx st.retryTimes true).success = true
  · by_cases hc : st.cache = []
    · rw [upload_of_success_empty net wf d idx st hs hc]
    · rw [upload_of_success_drain net wf d idx st hs hc]
      exact uploadCachedData_enableCache net wf _ st
  · rw [upload_of_fail net wf d idx st (by simpa using hs)]
    dsimp only
    split
    · exact addToCache_enableCache wf d st
    · rfl

theorem upload_fileMatch {α : Type} [DecidableEq α]
    (net : ℕ → AttemptOutcome) (d : α) (idx : ℕ) (st : UploaderState α)
    (h : cacheOfFile st.file = st.cache) :
    cacheOfFile (upload net false d idx st).2.1.file
      = (upload net false d idx st).2.1.cache := by
  by_cases hs : (uploadSingle net idx st.retryTimes true).success = true
  · by_cases hc : st.cache = []
    · rw [upload_of_success_empty net false d idx st hs hc]
      exact h
    · rw [upload_of_success_drain net false d idx st hs hc]
      exact uploadCachedData_fileMatch net _ st h
  · rw [upload_of_fail net false d idx st (by simpa using hs)]
    dsimp only
    split
    · exact addToCache_fileMatch d st h
    · exact h

theorem runTicks_fileMatch {α : Type} [DecidableEq α]
    (net : ℕ → AttemptOutcome) :
    ∀ (xs : List α) (idx : ℕ) (st : UploaderState α),
      cacheOfFile st.file = st.cache →
      cacheOfFile (runTicks net false xs idx st).1.file
        = (runTicks net false xs idx st).1.cache := by
  intro xs
  induction xs with
  | nil => intro idx st h; exact h
  | cons d ds ih =>
    intro idx st h
    simp only [runTicks]
    exact ih _ _ (upload_fileMatch net d idx st h)

theorem tickDelivered_of_fail {α : Type} (net : ℕ → AttemptOutcome) (d : α)
    (idx : ℕ) (st : UploaderState α)
    (h : (uploadSingle net idx st.retryTimes true).success = false) :
    tickDelivered net d idx st = [] := by
  simp [tickDelivered, h]

theorem tickDelivered_of_success_empty {α : Type} (net : ℕ → AttemptOutcome)
    (d : α) (idx : ℕ) (st : UploaderState α)
    (h : (uploadSingle net idx st.retryTimes true).success = true)
    (hc : st.cache = []) :
    tickDelivered net d idx st = [d] := by
  simp [tickDelivered, h, hc]

theorem tickDelivered_of_success_drain {α : Type} (net : ℕ → AttemptOutcome)
    (d : α) (idx : ℕ) (st : UploaderState α)
    (h : (uploadSingle net idx st.retryTimes true).success = true)
    (hc : st.cache ≠ []) :
    tickDelivered net d idx st
      = d :: (drainGo net st.retryTimes
          (idx + (uploadSingle net idx st.retryTimes true).attempts)
          st.cache).1 := by
  simp [tickDelivered, h, List.isEmpty_iff, hc]

/-- In a duplicate-free list, filtering away the members of the first `k`
positions is the same as dropping them. -/
theorem filter_not_mem_take {α : Type} [DecidableEq α] :
    ∀ (k : ℕ) (l : List α), l.Nodup →
      l.filter (fun x => x ∉ l.take k) = l.drop k := by
  intro k
  induction k with
  | zero => intro l _; simp
  | succ k' ih =>
    intro l hnd
    cases l with
    | nil => simp
    | cons a l' =>
      simp only [List.take_succ_cons, List.drop_succ_cons]
      rw [List.filter_cons_of_neg (by simp)]
      have step : l'.filter (fun x => decide (x ∉ a :: l'.take k'))
          = l'.filter (fun x => decide (x ∉ l'.take k')) := by
        apply List.filter_congr
        intro x hx
        have hxa : x ≠ a := by
          intro heq
          subst heq
          exact (List.nodup_cons.mp hnd).1 hx
        simp [List.mem_cons, hxa]
      rw [step, ih l' (List.nodup_cons.mp hnd).2]

/-- Run characterization: starting from any coherent uploader state with
caching enabled and no duplicates among (queue ++ inputs), after a run of
`upload` calls the queue holds exactly the entries — old queue first, then
the inputs in order — that were never acknowledged by the collector. -/
theorem runTicks_cache_filter {α : Type} [DecidableEq α]
    (net : ℕ → AttemptOutcome) :
    ∀ (xs : List α) (idx : ℕ) (st : UploaderState α),
      st.enableCache = true →
      (st.cache ++ xs).Nodup →
      (runTicks net false xs idx st).1.cache
        = (st.cache ++ xs).filter
            (fun x => x ∉ runDelivered net false xs idx st) := by
  intro xs
  induction xs with
  | nil =>
    intro idx st he hnd
    simp [runTicks, runDelivered]
  | cons d ds ih =>
    intro idx st he hnd
    by_cases hs : (uploadSingle net idx st.retryTimes true).success = true
    case neg =>
      have hf : (uploadSingle net idx st.retryTimes true).success = false := by
        simpa using hs
      have hup := upload_of_fail net false d idx st hf
      have htd := tickDelivered_of_fail net d idx st hf
      simp only [runTicks, runDelivered, hup, htd, List.nil_append]
      rw [if_pos he]
      have he' : (addToCache false d st).enableCache = true := by
        rw [addToCache_enableCache]; exact he
      have hcache' : (addToCache false d st).cache = st.cache ++ [d] :=
        addToCache_cache false d st he
      have hnd' : ((addToCache false d st).cache ++ ds).Nodup := by
        rw [hcache', List.append_assoc, List.singleton_append]; exact hnd
      rw [ih _ (addToCache false d st) he' hnd', hcache', List.append_assoc,
        List.singleton_append]
    case pos =>
      by_cases hc : st.cache = []
      · have hup := upload_of_success_empty net false d idx st hs hc
        have htd := tickDelivered_of_success_empty net d idx st hs hc
        simp only [runTicks, runDelivered, hup, htd]
        have hnd0 : (st.cache ++ ds).Nodup :=
          List.Nodup.sublist
            (List.Sublist.append (List.Sublist.refl st.cache)
              (List.sublist_cons_of_sublist d (List.Sublist.refl ds))) hnd
        rw [ih _ st he hnd0, hc]
        simp only [List.nil_append, List.singleton_append]
        rw [List.filter_cons_of_neg (by simp)]
        have hdds : d ∉ ds := by
          rw [hc] at hnd
          exact (List.nodup_cons.mp (by simpa using hnd)).1
        exact List.filter_congr (fun x hx => by
          have hxd : x ≠ d := fun heq => hdds (heq ▸ hx)
          simp [List.mem_cons, hxd])
      · have hup := upload_of_success_drain net false d idx st hs hc
        have htd := tickDelivered_of_success_drain net d idx st hs hc
        simp only [runTicks, runDelivered, hup, htd]
        have he' :
            ((uploadCachedData net false
              (idx + (uploadSingle net idx st.retryTimes true).attempts)
              st).1).enableCache = true := by
          rw [uploadCachedData_enableCache]; exact he
        have hcache' :
            ((uploadCachedData net false
              (idx + (uploadSingle net idx st.retryTimes true).attempts)
              st).1).cache
              = st.cache.drop
                  (drainCount net st.retryTimes
                    (idx + (uploadSingle net idx st.retryTimes true).attempts)
                    st.cache) :=
          uploadCachedData_cache net false _ st
        have hnd' :
            (((uploadCachedData net false
              (idx + (uploadSingle net idx st.retryTimes true).attempts)
              st).1).cache ++ ds).Nodup := by
          rw [hcache']
          exact List.Nodup.sublist
            (List.Sublist.append (List.drop_sublist _ st.cache)
              (List.sublist_cons_of_sublist d (List.Sublist.refl ds))) hnd
        rw [ih _ _ he' hnd', hcache', drainGo_fst_take]
        obtain ⟨hnc, hndd, hdisj⟩ := List.nodup_append.mp hnd
        have hdds : d ∉ ds := (List.nodup_cons.mp hndd).1
        rw [List.filter_append, List.filter_append]
        have hC :
            st.cache.filter
              (fun x => x ∉
                (d :: st.cache.take
                  (drainCount net st.retryTimes
                    (idx + (uploadSingle net idx st.retryTimes true).attempts)
                    st.cache)) ++
                  runDelivered net false ds
                    (uploadCachedData net false
                      (idx + (uploadSingle net idx st.retryTimes true).attempts)
                      st).2
                    (uploadCachedData net false
                      (idx + (uploadSingle net idx st.retryTimes true).attempts)
                      st).1)
            = (st.cache.drop
                (drainCount net st.retryTimes
                  (idx + (uploadSingle net idx st.retryTimes true).attempts)
                  st.cache)).filter
                (fun x => x ∉
                  runDelivered net false ds
                    (uploadCachedData net false
                      (idx + (uploadSingle net idx st.retryTimes true).attempts)
                      st).2
                    (uploadCachedData net false
                      (idx + (uploadSingle net idx st.retryTimes true).attempts)
                      st).1) := by
          have hstep : st.cache.filter
              (fun x => x ∉
                (d :: st.cache.take
                  (drainCount net st.retryTimes
                    (idx + (uploadSingle net idx st.retryTimes true).attempts)
                    st.cache)) ++
                  runDelivered net false ds
                    (uploadCachedData net false
                      (idx + (uploadSingle net idx st.retryTimes true).attempts)
                      st).2
                    (uploadCachedData net false
                      (idx + (uploadSingle net idx st.retryTimes true).attempts)
                      st).1)
              = st.cache.filter
                  (fun x =>
                    decide (x ∉
                      runDelivered net false ds
                        (uploadCachedData net false
                          (idx + (uploadSingle net idx st.retryTimes true).attempts)
                          st).2
                        (uploadCachedData net false
                          (idx + (uploadSingle net idx st.retryTimes true).attempts)
                          st).1) &&
                    decide (x ∉ st.cache.take
                      (drainCount net st.retryTimes
                        (idx + (uploadSingle net idx st.retryTimes true).attempts)
                        st.cache))) := by
            apply List.filter_congr
            intro x hx
            have hxd : x ≠ d := fun heq =>
              hdisj (heq ▸ hx) (List.mem_cons_self d ds)
            by_cases h1 : x ∈ st.cache.take
                (drainCount net st.retryTimes
                  (idx + (uploadSingle net idx st.retryTimes true).attempts)
                  st.cache) <;>
              by_cases h2 : x ∈
                  runDelivered net false ds
                    (uploadCachedData net false
                      (idx + (uploadSingle net idx st.retryTimes true).attempts)
                      st).2
                    (uploadCachedData net false
                      (idx + (uploadSingle net idx st.retryTimes true).attempts)
                      st).1 <;>
              simp [List.mem_append, List.mem_cons, hxd, h1, h2]
          rw [hstep, ← List.filter_filter, filter_not_mem_take _ st.cache hnc]
        rw [hC]
        rw [List.filter_cons_of_neg (by simp)]
        congr 1
        apply List.filter_congr
        intro x hx
        have hxd : x ≠ d := fun heq => hdds (heq ▸ hx)
        have hxc : x ∉ st.cache.take
            (drainCount net st.retryTimes
              (idx + (uploadSingle net idx st.retryTimes true).attempts)
              st.cache) := fun hmem =>
          hdisj (List.take_subset _ st.cache hmem) (List.mem_cons_of_mem d hx)
        simp [List.mem_append, List.mem_cons, hxd, hxc]

/-- Claim C1 (no-loss): with caching enabled, for every finite run of
delivery outcomes (any mix of success and failure, as described by the
network oracle), the spill queue after the run holds exactly those inputs
that were never successfully acknowledged by the collector (fresh success
or a successful drain attempt), in input order — in particular every
never-acknowledged input is present — and re-initialising a fresh uploader
from the persisted file reconstructs exactly the same queue in the same
order.  Inputs are tagged with their tick index, which keeps equal
reading-sets from distinct ticks distinguishable. -/
theorem no_loss (net : ℕ → AttemptOutcome) (sds : List SensorData) (rt : ℕ) :
    (runTicks net false sds.enum 0 (initUploader true rt .missing)).1.cache
      = sds.enum.filter
          (fun p => p ∉
            runDelivered net false sds.enum 0 (initUploader true rt .missing))
  ∧ (∀ p ∈ sds.enum,
      p ∉ runDelivered net false sds.enum 0 (initUploader true rt .missing) →
      p ∈ (runTicks net false sds.enum 0
            (initUploader true rt .missing)).1.cache)
  ∧ (initUploader true rt
        (runTicks net false sds.enum 0
          (initUploader true rt .missing)).1.file).cache
      = (runTicks net false sds.enum 0
          (initUploader true rt .missing)).1.cache := by
  have hnd : ((initUploader (α := ℕ × SensorData) true rt .missing).cache
      ++ sds.enum).Nodup := by
    have h0 : (initUploader (α := ℕ × SensorData) true rt .missing).cache
        = [] := rfl
    rw [h0, List.nil_append]
    exact (List.nodup_enum_map_fst sds).of_map _
  have h1 := runTicks_cache_filter net sds.enum 0
    (initUploader true rt .missing) (initUploader_enableCache rt _) hnd
  have hA :
      (runTicks net false sds.enum 0 (initUploader true rt .missing)).1.cache
        = sds.enum.filter
            (fun p => p ∉
              runDelivered net false sds.enum 0
                (initUploader true rt .missing)) := by
    have h0 : (initUploader (α := ℕ × SensorData) true rt .missing).cache
        = [] := rfl
    rw [h1, h0, List.nil_append]
    exact List.filter_congr (fun x _ => decide_eq_decide.mpr Iff.rfl)
  refine ⟨hA, ?_, ?_⟩
  · intro p hp hnp
    rw [hA]
    exact List.mem_filter.mpr ⟨hp, by simpa using hnp⟩
  · have hfm := runTicks_fileMatch net sds.enum 0
      (initUploader true rt .missing)
      (by rw [initUploader_file, initUploader_cache])
    rw [initUploader_cache]
    exact hfm

/-- Witness for C1: one reading-set, delivered to a collector that always
times out — it is never acknowledged and is present (with its tick tag) in
the spill queue after the run. -/
theorem no_loss_witness :
    ((0, ⟨"t", none, none, none, none⟩) : ℕ × SensorData)
      ∈ (runTicks (fun _ => AttemptOutcome.timeout) false
          ([⟨"t", none, none, none, none⟩] : List SensorData).enum 0
          (initUploader true 3 .missing)).1.cache :=
  (no_loss (fun _ => AttemptOutcome.timeout)
      [⟨"t", none, none, none, none⟩] 3).2.1
    (0, ⟨"t", none, none, none, none⟩) (by decide) (by decide)
